import Mathlib

/-!
Verification of the PyEMMA serialization core
(`src/pyemma/_base/serialization/serialization.py`) against its
natural-language specification.

The Python module is shallowly embedded: the mutable state dictionary of an
instance becomes an insertion-ordered association list, migration actions of
`_serialize_interpolation_map` become an inductive `Action` type, exceptions
become an explicit error component (mutation performed before an exception is
raised is kept, mirroring Python's in-place semantics), and the class/instance
reflection used by `__getstate__` / `__setstate__` becomes explicit records of
the class-level metadata the source inspects via `hasattr`.
-/

namespace PyEMMA

/-- Deep embedding of the pure transformation functions that a `('map', name,
func)` action of `_serialize_interpolation_map` may carry.  In the source these
are arbitrary Python callables defined in code (never persisted); a small
closed function language suffices for the behaviour the spec describes. -/
inductive PFun where
  | idFun : PFun
  | addInt (n : Int) : PFun
deriving DecidableEq, Repr

/-- Python values stored in an instance's state dictionary.  `vmanifest`
models the nested `{fully_qualified_class_name: version}` dictionary stored
under the `'class_tree_versions'` key by `__getstate__`; `fn` models a
callable value (used by `map` actions); `pynone` is Python's `None`. -/
inductive PVal where
  | int (n : Int) : PVal
  | str (s : String) : PVal
  | bool (b : Bool) : PVal
  | pynone : PVal
  | fn (f : PFun) : PVal
  | vmanifest (entries : List (String × Int)) : PVal
deriving DecidableEq, Repr

/-- Evaluate a deep-embedded transformation function on a value. -/
def PFun.apply : PFun → PVal → PVal
  | .idFun, v => v
  | .addInt n, .int m => .int (m + n)
  | .addInt _, v => v

/-- Association-list lookup: `d[k]` returning `none` on a missing key
(a Python `dict` keyed by the first component). -/
def alGet? {κ α : Type} [DecidableEq κ] : List (κ × α) → κ → Option α
  | [], _ => none
  | (k, v) :: rest, key => if k = key then some v else alGet? rest key

/-- Association-list store `d[k] = v`: an existing key keeps its position
(Python dicts update in place), a fresh key is appended (insertion order). -/
def alSet {κ α : Type} [DecidableEq κ] : List (κ × α) → κ → α → List (κ × α)
  | [], key, val => [(key, val)]
  | (k, v) :: rest, key, val =>
      if k = key then (k, val) :: rest else (k, v) :: alSet rest key val

/-- Association-list `d.pop(k)`: the removed value and the remaining entries,
or `none` (Python: `KeyError`) if the key is absent. -/
def alPop {κ α : Type} [DecidableEq κ] : List (κ × α) → κ → Option (α × List (κ × α))
  | [], _ => none
  | (k, v) :: rest, key =>
      if k = key then some (v, rest)
      else match alPop rest key with
        | some (w, rest2) => some (w, (k, v) :: rest2)
        | none => none

/-- `d.pop(k, default)` restricted to its effect on the dictionary: remove the
key if present, otherwise leave the dictionary unchanged. -/
def alPopD {κ α : Type} [DecidableEq κ] (l : List (κ × α)) (key : κ) : List (κ × α) :=
  match alPop l key with
  | some (_, rest) => rest
  | none => l

/-- `d.pop(k, default)` returning both the value (or the default) and the
remaining dictionary. -/
def alPopWithDefault {κ α : Type} [DecidableEq κ] (l : List (κ × α)) (key : κ)
    (dflt : α) : α × List (κ × α) :=
  match alPop l key with
  | some (v, rest) => (v, rest)
  | none => (dflt, l)

/-- The state dictionary handed to `__setstate__` / produced by
`__getstate__`: an insertion-ordered Python dict. -/
abbrev StateDict := List (PVal × PVal)

/-- The Python exceptions the serialization core can raise (messages
dropped).  `developerError` is the module's own `DeveloperError`;
`genericError` stands for an arbitrary exception escaping the h5py/jsonpickle
machinery inside `save`'s `try` block. -/
inductive PyErr where
  | developerError : PyErr
  | runtimeError : PyErr
  | keyError : PyErr
  | assertionError : PyErr
  | attributeError : PyErr
  | valueError : PyErr
  | genericError : PyErr
deriving DecidableEq, Repr

/-- A migration action of `_serialize_interpolation_map`.  The source stores
plain tuples and dispatches on `len(a)` and on the verb `a[0]`; `mk3` models a
3-tuple `(op, name, value)`, `mk2` a 2-tuple `(op, arg)`, and `mkOther` a tuple
of any other length (only the verb is ever inspected for those). -/
inductive Action where
  | mk3 (op : PVal) (name : PVal) (value : PVal) : Action
  | mk2 (op : PVal) (arg : PVal) : Action
  | mkOther (op : PVal) (len : Nat) : Action
deriving DecidableEq, Repr

/-- `a[0]`: the verb of an action tuple. -/
def Action.op : Action → PVal
  | .mk3 op _ _ => op
  | .mk2 op _ => op
  | .mkOther op _ => op

/-- The `valid_ops` tuple of `_validate_interpolation_map`. -/
def validOps : List PVal :=
  [PVal.str "set", PVal.str "rm", PVal.str "mv", PVal.str "map"]

/-- `action[0] in valid_ops`. -/
def isValidOp (op : PVal) : Bool :=
  validOps.any (fun o => decide (op = o))

/-- Apply one migration action to the state dict, as the inner loop of
`SerializableMixIn.__interpolate` does (lines 334-357 of the source):
a 3-tuple dispatches on `set` / `mv` / `map` (`mv` raising `DeveloperError`
when the source key is missing, `map` asserting callability and raising
`KeyError` when the field is missing), a 2-tuple only handles `rm`
(`dict.pop` with a default, so tolerant of a missing key), and every other
shape falls through silently. -/
def applyAction (st : StateDict) (a : Action) : StateDict × Option PyErr :=
  match a with
  | .mk3 op name value =>
      if op = PVal.str "set" then (alSet st name value, none)
      else if op = PVal.str "mv" then
        match alPop st name with
        | some (arg, st2) => (alSet st2 value arg, none)
        | none => (st, some PyErr.developerError)
      else if op = PVal.str "map" then
        match value with
        | PVal.fn f =>
            match alGet? st name with
            | some v => (alSet st name (f.apply v), none)
            | none => (st, some PyErr.keyError)
        | _ => (st, some PyErr.assertionError)
      else (st, none)
  | .mk2 op arg =>
      if op = PVal.str "rm" then (alPopD st arg, none) else (st, none)
  | .mkOther _ _ => (st, none)

/-- Apply a list of actions in declared order, stopping at the first raised
exception (the state mutated so far is kept, as in Python). -/
def applyActions : StateDict → List Action → StateDict × Option PyErr
  | st, [] => (st, none)
  | st, a :: rest =>
      match applyAction st a with
      | (st2, none) => applyActions st2 rest
      | (st2, some e) => (st2, some e)

/-- `sorted(klass._serialize_interpolation_map.items())`: sort the map's
entries by their integer version key, ascending. -/
def sortByKey (l : List (Int × List Action)) : List (Int × List Action) :=
  List.insertionSort (fun p q => p.1 ≤ q.1) l

/-- Does every action of the map carry a verb from `valid_ops`? -/
def mapActionsValid (imap : List (Int × List Action)) : Bool :=
  imap.all (fun p => p.2.all (fun a => isValidOp a.op))

/-- `SerializableMixIn._validate_interpolation_map`: sorts the map by version
key and checks every action's verb against `valid_ops`, raising
`DeveloperError` otherwise.  (The source's `is_int` key check and the
list/tuple check on the values hold by construction here, since keys are
`Int` and values are `List Action` by type.)  The source stores the sorted
map back onto the class; the model returns it instead. -/
def validateInterpolationMap (imap : List (Int × List Action)) :
    Except PyErr (List (Int × List Action)) :=
  let sorted := sortByKey imap
  if mapActionsValid sorted then .ok sorted else .error PyErr.developerError

/-- Modelled from the spec: the process-wide `class_rename_registry` of
`pyemma/_base/serialization/util.py` is not under `src/`; per the spec it is
an append-only mapping `oldFullyQualifiedName -> newFullyQualifiedName` with a
reverse index `newName -> [oldNames]` used for interpolation lookups. -/
structure ClassRenameRegistry where
  renames : List (String × String)
deriving DecidableEq, Repr

/-- Modelled from the spec: `class_rename_registry.old_handled_by(klass)` —
all historical names whose registry entry points at the given current name. -/
def ClassRenameRegistry.oldHandledBy (r : ClassRenameRegistry)
    (newName : String) : List String :=
  (r.renames.filter (fun p => decide (p.2 = newName))).map Prod.fst

/-- The class-level metadata of one class in an instance's method-resolution
order, as inspected by the serialization core: its fully qualified
(`importable`) name, the optional `_serialize_version` attribute, the
`_serialize_fields` tuple, the optional `_serialize_interpolation_map`, the
optional `_get_param_names` class method (presence and result), and whether
the class is a subclass of `BaseEstimator`. -/
structure PyClass where
  name : String
  serializeVersion? : Option Int
  serializeFields : List String
  interpolationMap? : Option (List (Int × List Action))
  paramNames? : Option (List String)
  isBaseEstimator : Bool
deriving DecidableEq, Repr

/-- A saved class version: an integer from the manifest, or the
`float('inf')` sentinel returned when no manifest entry is found. -/
inductive Version where
  | fin (n : Int) : Version
  | inf : Version
deriving DecidableEq, Repr

/-- `klass_version > klass._serialize_version` with the infinity sentinel. -/
def Version.gtV : Version → Int → Bool
  | .inf, _ => true
  | .fin n, m => decide (n > m)

/-- `key >= klass_version` with the infinity sentinel. -/
def Version.leKey : Version → Int → Bool
  | .inf, _ => false
  | .fin n, k => decide (n ≤ k)

/-- `state['class_tree_versions'][n]` as an `Option`: `none` when the
manifest key or the class name is absent (Python: `KeyError`, caught by the
caller).  Only a `vmanifest` value is a manifest; the model folds any other
value under that key into the not-found case. -/
def manifestLookup (state : StateDict) (n : String) : Option Int :=
  match alGet? state (PVal.str "class_tree_versions") with
  | some (PVal.vmanifest m) => alGet? m n
  | _ => none

/-- The name list probed by `_get_version_for_class_from_state`: the class's
current importable name followed by every historical name the rename registry
maps to it. -/
def lookupNames (klassName : String) (reg : ClassRenameRegistry) : List String :=
  klassName :: reg.oldHandledBy klassName

/-- Probe the manifest for each candidate name in order; the first hit wins,
and exhaustion yields the `float('inf')` sentinel. -/
def versionFromNames (state : StateDict) : List String → Version
  | [] => Version.inf
  | n :: rest =>
      match manifestLookup state n with
      | some v => Version.fin v
      | none => versionFromNames state rest

/-- `SerializableMixIn._get_version_for_class_from_state` (lines 361-374). -/
def getVersionForClassFromState (state : StateDict) (klassName : String)
    (reg : ClassRenameRegistry) : Version :=
  versionFromNames state (lookupNames klassName reg)

/-- The key loop of `__interpolate` (lines 326-357): walk the (sorted) map
and, for every key with `klass._serialize_version > key >= klass_version`,
apply that key's actions in declared order; other keys are skipped.  The
first exception stops the walk, keeping the state mutated so far. -/
def applyVersionKeys (cur : Int) (kv : Version) :
    List (Int × List Action) → StateDict → StateDict × Option PyErr
  | [], st => (st, none)
  | (key, actions) :: rest, st =>
      if decide (cur > key) && kv.leKey key then
        match applyActions st actions with
        | (st2, none) => applyVersionKeys cur kv rest st2
        | (st2, some e) => (st2, some e)
      else applyVersionKeys cur kv rest st

/-- `SerializableMixIn.__interpolate` (lines 310-359): no-op without an
interpolation map; look up the saved version (infinity sentinel when absent);
no-op when the saved version exceeds the current `_serialize_version`
(reading that attribute raises `AttributeError` when the class never declared
it); otherwise validate the map and replay the in-range version keys. -/
def interpolate (state : StateDict) (klass : PyClass)
    (reg : ClassRenameRegistry) : StateDict × Option PyErr :=
  match klass.interpolationMap? with
  | none => (state, none)
  | some imap =>
      let kv := getVersionForClassFromState state klass.name reg
      match klass.serializeVersion? with
      | none => (state, some PyErr.attributeError)
      | some cur =>
          if kv.gtV cur then (state, none)
          else
            match validateInterpolationMap imap with
            | .error e => (state, some e)
            | .ok sorted => applyVersionKeys cur kv sorted state

/-- The action sequence the spec says interpolation must replay: the
action-lists of exactly the keys `k` with `v0 <= k < v1`, in ascending key
order, each list in declared order. -/
def actionsInRange (imap : List (Int × List Action)) (v0 v1 : Int) :
    List Action :=
  (((sortByKey imap).filter
      (fun p => decide (v0 ≤ p.1) && decide (p.1 < v1))).map Prod.snd).flatten

/-- Spec-side reference semantics of interpolation, written from the spec's
words ("applying the Interpolator is equivalent to applying, in order, only
those action-lists keyed in `[v0, v1)`"), to be compared with
`interpolate`. -/
def interpolateSpec (imap : List (Int × List Action)) (v0 v1 : Int)
    (state : StateDict) : StateDict × Option PyErr :=
  applyActions state (actionsInRange imap v0 v1)

/-!
Producer-chain model.  `save` and the `_save_data_producer` property
(lines 67-105 and 257-274) manipulate a singly linked chain of objects via
the `data_producer` attribute; the chain structure and object identity
matter there, so the chain is embedded as its own inductive: each object
carries whether its class declares `_serialize_version`, the
`__save_data_producer` attribute (absent before the property is first read),
and its `data_producer`: no such attribute, a reference to itself, a falsy
value, or a distinct downstream object.
-/

/-- An object on a producer chain. -/
inductive ChainObj where
  | leafAbsent (hasVersion : Bool) (flag : Option Bool) : ChainObj
  | leafSelfRef (hasVersion : Bool) (flag : Option Bool) : ChainObj
  | leafFalsy (hasVersion : Bool) (flag : Option Bool) : ChainObj
  | cons (hasVersion : Bool) (flag : Option Bool) (producer : ChainObj) : ChainObj
deriving DecidableEq, Repr

/-- The stored `__save_data_producer` attribute of an object. -/
def ChainObj.flag : ChainObj → Option Bool
  | .leafAbsent _ f => f
  | .leafSelfRef _ f => f
  | .leafFalsy _ f => f
  | .cons _ f _ => f

/-- Does the object's class declare `_serialize_version`? -/
def ChainObj.hasVersion : ChainObj → Bool
  | .leafAbsent h _ => h
  | .leafSelfRef h _ => h
  | .leafFalsy h _ => h
  | .cons h _ _ => h

/-- The `_save_data_producer` property getter (lines 257-263): returns the
stored attribute, initialising it to `False` when it was never set. -/
def getSaveDataProducer : ChainObj → ChainObj × Bool
  | .leafAbsent h f => ((.leafAbsent h (some (f.getD false))), f.getD false)
  | .leafSelfRef h f => ((.leafSelfRef h (some (f.getD false))), f.getD false)
  | .leafFalsy h f => ((.leafFalsy h (some (f.getD false))), f.getD false)
  | .cons h f p => ((.cons h (some (f.getD false)) p), f.getD false)

/-- The `_save_data_producer` property setter (lines 265-274): stores the
value on the object first; then, if the value is truthy and the object has a
truthy `data_producer` distinct from itself, raises `RuntimeError` when the
producer's class lacks `_serialize_version` and otherwise forwards the value
down the chain.  An exception leaves all mutations made so far in place. -/
def setSaveDataProducer : ChainObj → Bool → ChainObj × Option PyErr
  | .leafAbsent h _, value => (.leafAbsent h (some value), none)
  | .leafSelfRef h _, value => (.leafSelfRef h (some value), none)
  | .leafFalsy h _, value => (.leafFalsy h (some value), none)
  | .cons h _ p, value =>
      if value then
        if p.hasVersion then
          match setSaveDataProducer p value with
          | (p2, e) => (.cons h (some value) p2, e)
        else (.cons h (some value) p, some PyErr.runtimeError)
      else (.cons h (some value) p, none)

/-- Is some producer reachable down the chain (before any that stops the
forwarding) of a class without `_serialize_version`?  This is exactly the
condition under which setting the flag to `True` raises. -/
def chainBroken : ChainObj → Bool
  | .cons _ _ p => !p.hasVersion || chainBroken p
  | _ => false

/-- The module-level `save` (lines 67-105) restricted to its effect on the
object and its producer chain: read the old flag (property getter), assign
the requested flag (property setter — raised *before* the `try`, so not
covered by the `finally`), then run the h5py/jsonpickle body (external;
abstracted to whether it raises), and in a `finally` assign the old flag
back.  An exception from the `finally` assignment replaces the body's
outcome. -/
def saveModel (obj : ChainObj) (saveStreamingChain : Bool) (bodyFails : Bool) :
    ChainObj × Option PyErr :=
  let (obj1, oldFlag) := getSaveDataProducer obj
  match setSaveDataProducer obj1 saveStreamingChain with
  | (obj2, some e) => (obj2, some e)
  | (obj2, none) =>
      let bodyErr : Option PyErr := if bodyFails then some PyErr.genericError else none
      match setSaveDataProducer obj2 oldFlag with
      | (obj3, some e) => (obj3, some e)
      | (obj3, none) => (obj3, bodyErr)

/-!
Container model for `load` (lines 108-143) and the class-method
`SerializableMixIn.load` (lines 231-255).  The h5py file is modelled as named
slots; the jsonpickle decode of a slot's stored document is an external
collaborator and is modelled as yielding the stored object.
-/

/-- Flat model of one instance, as the encoder/decoder sees it: its
method-resolution order (head = the instance's own class), its attribute
dictionary (`getattr`/`setattr`/instance-`hasattr` all go through it), the
duck-typed capabilities `__getstate__`/`__setstate__` probe with `hasattr`,
and the externally supplied model-parameter data. -/
structure PyObj where
  mro : List PyClass
  attrs : List (String × PVal)
  hasGetParams : Bool
  hasSetParams : Bool
  hasGetParamNamesSelf : Bool
  hasGetModelParams : Bool
  modelParams : List (String × PVal)
  hasSetModelParams : Bool
  hasGetModelParamNames : Bool
  modelParamNames : List String
  saveDataProducer : Bool
deriving DecidableEq, Repr

/-- The class of an instance: the head of its method-resolution order. -/
def PyObj.clsName? (obj : PyObj) : Option String :=
  (obj.mro.head?).map PyClass.name

/-- An h5py file: named model slots, each holding (the decode of) one stored
object. -/
structure H5File where
  slots : List (String × PyObj)
deriving DecidableEq, Repr

/-- The module-level `load` (lines 108-143): a missing slot name raises
`ValueError`; otherwise the slot's document is decoded (external machinery,
modelled as returning the stored object). -/
def loadModel (f : H5File) (modelName : String) : Except PyErr PyObj :=
  match alGet? f.slots modelName with
  | none => .error PyErr.valueError
  | some obj => .ok obj

/-- The class a class-method `load` call is invoked on: its importable name
and whether it declares `_serialize_version`. -/
structure ClsRef where
  name : String
  hasSerializeVersion : Bool
deriving DecidableEq, Repr

/-- `SerializableMixIn.load` (lines 231-255): load the object, then reject
with `ValueError` unless the decoded object's class is exactly (`!=`) the
invoked class, then reject with `DeveloperError` when the invoked class lacks
`_serialize_version`. -/
def loadForClass (cls : ClsRef) (f : H5File) (modelName : String) :
    Except PyErr PyObj :=
  match loadModel f modelName with
  | .error e => .error e
  | .ok obj =>
      if obj.clsName? ≠ some cls.name then .error PyErr.valueError
      else if !cls.hasSerializeVersion then .error PyErr.developerError
      else .ok obj

/-!
Encoder model: `__getstate__` (lines 396-459).  The bare `except` at the end
logs and swallows every exception, making `__getstate__` return `None`; the
body proper is `getstateCore`, the wrapper is `getstate`.
-/

/-- `res['class_tree_versions']` as built by the `for c in
self.__class__.mro()` loop (lines 409-415): each class's importable name is
mapped, by dict assignment, to its `_serialize_version` or to the sentinel
`-1` when the class declares none. -/
def buildClassTreeVersions (mro : List PyClass) : List (String × Int) :=
  mro.foldl (fun acc c => alSet acc c.name (c.serializeVersion?.getD (-1))) []

/-- `self._get_classes_to_inspect()` (lines 498-508): the mro classes with a
non-empty `_serialize_fields`, followed by the mro classes that have both
`_get_param_names` and `_serialize_version`. -/
def classesToInspect (obj : PyObj) : List PyClass :=
  obj.mro.filter (fun c => !c.serializeFields.isEmpty)
    ++ obj.mro.filter (fun c => c.paramNames?.isSome && c.serializeVersion?.isSome)

/-- `self._get_state_of_serializeable_fields(klass)` (lines 276-284): the
fields of `klass._serialize_fields` the instance actually has, with their
values. -/
def stateOfSerializeableFields (obj : PyObj) (klass : PyClass) :
    List (PVal × PVal) :=
  (klass.serializeFields.filterMap
    (fun f => (alGet? obj.attrs f).map (fun v => (PVal.str f, v))))

/-- `res.update(other)`: fold each entry of `other`, in order, into `res` by
dict assignment. -/
def sdUpdate (res : StateDict) (other : List (PVal × PVal)) : StateDict :=
  other.foldl (fun r p => alSet r p.1 p.2) res

/-- The per-class `inc` dictionary of `__getstate__`'s inspection loop
(lines 430-436): the class's present serializable fields, updated — for
`BaseEstimator` subclasses — with `{k: getattr(self, k, None)}` over the
class's `_get_param_names()` (whose absence on such a class raises
`AttributeError`). -/
def incOfClass (obj : PyObj) (klass : PyClass) : Except PyErr (List (PVal × PVal)) :=
  let inc := stateOfSerializeableFields obj klass
  if klass.isBaseEstimator then
    match klass.paramNames? with
    | none => .error PyErr.attributeError
    | some names =>
        .ok (sdUpdate inc (names.map
          (fun k => (PVal.str k, (alGet? obj.attrs k).getD PVal.pynone))))
  else .ok inc

/-- The inspection loop of `__getstate__`: `res.update(inc)` per inspected
class, stopping at the first exception. -/
def stepClasses (obj : PyObj) : List PyClass → StateDict → Except PyErr StateDict
  | [], res => .ok res
  | klass :: rest, res =>
      match incOfClass obj klass with
      | .error e => .error e
      | .ok inc => stepClasses obj rest (sdUpdate res inc)

/-- Lines 417-420 of `__getstate__`: when `_save_data_producer` is set, the
instance must have a `data_producer` attribute (`assert hasattr`), whose
value is stored under `res['data_producer']`. -/
def stepProducer (obj : PyObj) (res : StateDict) : Except PyErr StateDict :=
  if obj.saveDataProducer then
    match alGet? obj.attrs "data_producer" with
    | none => .error PyErr.assertionError
    | some v => .ok (alSet res (PVal.str "data_producer") v)
  else .ok res

/-- Lines 423-424: store `_is_reader` when the instance has it. -/
def stepIsReader (obj : PyObj) (res : StateDict) : StateDict :=
  match alGet? obj.attrs "_is_reader" with
  | some v => alSet res (PVal.str "_is_reader") v
  | none => res

/-- Lines 439-446: for an object with `get_params`, store `_estimated`
(reading a missing attribute raises `AttributeError`) and, when present, the
`_model` attribute under the key `'model'`. -/
def stepEstimator (obj : PyObj) (res : StateDict) : Except PyErr StateDict :=
  if obj.hasGetParams then
    match alGet? obj.attrs "_estimated" with
    | none => .error PyErr.attributeError
    | some v =>
        let res2 := alSet res (PVal.str "_estimated") v
        match alGet? obj.attrs "_model" with
        | some m => .ok (alSet res2 (PVal.str "model") m)
        | none => .ok res2
  else .ok res

/-- Lines 449-451: `res.update(self.get_model_params(deep=False))` for an
object with `get_model_params` (the getter itself is external; its result is
the object's `modelParams` data). -/
def stepModelParams (obj : PyObj) (res : StateDict) : StateDict :=
  if obj.hasGetModelParams then
    sdUpdate res (obj.modelParams.map (fun p => (PVal.str p.1, p.2)))
  else res

/-- The recorded software version string (`pyemma.version`, external). -/
def pyemmaVersion : String := "2.5.12"

/-- The tail of `__getstate__` after the producer entry: reader flag,
per-class fields, estimator entries, model parameters, and the
`_pyemma_version` stamp. -/
def getstateTail (obj : PyObj) (res1 : StateDict) : Except PyErr StateDict :=
  let res2 := stepIsReader obj res1
  match stepClasses obj (classesToInspect obj) res2 with
  | .error e => .error e
  | .ok res3 =>
      match stepEstimator obj res3 with
      | .error e => .error e
      | .ok res4 =>
          let res5 := stepModelParams obj res4
          .ok (alSet res5 (PVal.str "_pyemma_version") (PVal.str pyemmaVersion))

/-- The body of `__getstate__` (the `try` block, lines 400-457): check that
the instance's hierarchy declares a version at all (else `DeveloperError`),
build the class-tree version manifest, then the producer / reader / per-class
fields / estimator / model-parameter entries, then stamp `_pyemma_version`. -/
def getstateCore (obj : PyObj) : Except PyErr StateDict :=
  if !(obj.mro.any (fun c => c.serializeVersion?.isSome)) then
    .error PyErr.developerError
  else
    let res0 : StateDict :=
      [(PVal.str "class_tree_versions", PVal.vmanifest (buildClassTreeVersions obj.mro))]
    match stepProducer obj res0 with
    | .error e => .error e
    | .ok res1 => getstateTail obj res1

/-- The state-dictionary keys the inspection loop of `__getstate__` /
`__setstate__` may touch for one class: its `_serialize_fields` and its
`_get_param_names()` result. -/
def classWrites (klass : PyClass) : List String :=
  klass.serializeFields ++ (klass.paramNames?.getD [])

/-- `__getstate__` (lines 396-459): its trailing bare `except` logs any
exception and falls off the end, returning `None`. -/
def getstate (obj : PyObj) : Option StateDict :=
  (getstateCore obj).toOption

/-!
Decoder model: `__setstate__` (lines 461-496).  The body is `setstateBody`
(threading the partially mutated instance and state, since Python mutations
survive an exception); the wrapper `setstate` realises the two `except`
clauses: an `AssertionError` is logged as left-over state, anything else is
logged as an exception — neither is re-raised.
-/

/-- `setattr(self, k, v)`. -/
def PyObj.setAttr (obj : PyObj) (k : String) (v : PVal) : PyObj :=
  { obj with attrs := alSet obj.attrs k v }

/-- `if param in state: setattr(self, param, state.pop(param))` over a name
list, in order. -/
def popNamesToAttrs : PyObj → StateDict → List String → PyObj × StateDict
  | obj, state, [] => (obj, state)
  | obj, state, n :: rest =>
      match alPop state (PVal.str n) with
      | some (v, state2) => popNamesToAttrs (obj.setAttr n v) state2 rest
      | none => popNamesToAttrs obj state rest

/-- `self._set_state_from_serializeable_fields_and_state(state, klass)`
(lines 376-394): interpolate, then consume the class's estimation parameters
(when the class has `_get_param_names`), then its `_serialize_fields`. -/
def consumeClass (obj : PyObj) (state : StateDict) (klass : PyClass)
    (reg : ClassRenameRegistry) : (PyObj × StateDict) × Option PyErr :=
  match interpolate state klass reg with
  | (state1, some e) => ((obj, state1), some e)
  | (state1, none) =>
      let (obj1, state2) :=
        match klass.paramNames? with
        | some names => popNamesToAttrs obj state1 names
        | none => (obj, state1)
      (popNamesToAttrs obj1 state2 klass.serializeFields, none)

/-- The `for klass in classes_to_inspect` loop of `__setstate__`, stopping at
the first exception. -/
def consumeClasses (reg : ClassRenameRegistry) :
    PyObj → StateDict → List PyClass → (PyObj × StateDict) × Option PyErr
  | obj, state, [] => ((obj, state), none)
  | obj, state, klass :: rest =>
      match consumeClass obj state klass reg with
      | (p, some e) => (p, some e)
      | ((obj2, state2), none) => consumeClasses reg obj2 state2 rest

/-- Lines 476-481: pop the current class's model-parameter names from the
state and hand them to `set_model_params`.  Modelled from the spec: the
setter itself is an external collaborator that "applies resolved fields back
onto" the instance, i.e. assigns each handed parameter as an attribute. -/
def stepSetModelParams (obj : PyObj) (state : StateDict) : PyObj × StateDict :=
  if obj.hasSetModelParams && obj.hasGetModelParamNames then
    popNamesToAttrs obj state obj.modelParamNames
  else (obj, state)

/-- The body of `__setstate__` (the `try` block, lines 462-491): `assert
state`; for estimators pop `_estimated` (a missing key raises `KeyError`) and
`model`; consume each inspected class; apply model parameters; restore
`data_producer` (read, *not* popped) and `_is_reader`; pop
`_pyemma_version` (with a default) and `class_tree_versions` (a missing key
raises `KeyError`); finally `assert len(state) == 0`. -/
def setstateBody (obj : PyObj) (state : StateDict) (reg : ClassRenameRegistry) :
    (PyObj × StateDict) × Option PyErr :=
  if state.isEmpty then ((obj, state), some PyErr.assertionError)
  else
    let step1 : (PyObj × StateDict) × Option PyErr :=
      if obj.hasSetParams && obj.hasGetParamNamesSelf then
        match alPop state (PVal.str "_estimated") with
        | none => ((obj, state), some PyErr.keyError)
        | some (v, state1) =>
            let (m, state2) := alPopWithDefault state1 (PVal.str "model") PVal.pynone
            ((((obj.setAttr "_estimated" v).setAttr "_model" m), state2), none)
      else ((obj, state), none)
    match step1 with
    | (p, some e) => (p, some e)
    | ((obj1, state1), none) =>
        match consumeClasses reg obj1 state1 (classesToInspect obj1) with
        | (p, some e) => (p, some e)
        | ((obj2, state2), none) =>
            let (obj3, state3) := stepSetModelParams obj2 state2
            let obj4 :=
              if (alGet? obj3.attrs "data_producer").isSome then
                match alGet? state3 (PVal.str "data_producer") with
                | some v => obj3.setAttr "data_producer" v
                | none => obj3
              else obj3
            let (obj5, state5) :=
              match alPop state3 (PVal.str "_is_reader") with
              | some (v, st) => (obj4.setAttr "_is_reader" v, st)
              | none => (obj4, state3)
            let (pv, state6) :=
              alPopWithDefault state5 (PVal.str "_pyemma_version")
                (PVal.str "!!!! UNKNOWN !!!!")
            let obj6 := obj5.setAttr "_pyemma_version" pv
            match alPop state6 (PVal.str "class_tree_versions") with
            | none => ((obj6, state6), some PyErr.keyError)
            | some (_, state7) =>
                if state7.isEmpty then ((obj6, state7), none)
                else ((obj6, state7), some PyErr.assertionError)

/-- What `__setstate__` was observed to do: finish normally, log left-over
state (the `except AssertionError` clause), or log any other exception (the
bare `except` clause).  In every case the call returns and the instance keeps
the mutations made so far — nothing is re-raised. -/
inductive SetstateOutcome where
  | normal : SetstateOutcome
  | leftoverLogged (leftover : StateDict) : SetstateOutcome
  | exceptionLogged (e : PyErr) : SetstateOutcome
deriving DecidableEq, Repr

/-- `__setstate__` (lines 461-496): run the body; an `AssertionError` is
logged together with the left-over state, any other exception is logged; the
(partially populated) instance survives either way. -/
def setstate (obj : PyObj) (state : StateDict) (reg : ClassRenameRegistry) :
    PyObj × SetstateOutcome :=
  match setstateBody obj state reg with
  | ((obj2, _), none) => (obj2, .normal)
  | ((obj2, state2), some PyErr.assertionError) => (obj2, .leftoverLogged state2)
  | ((obj2, _), some e) => (obj2, .exceptionLogged e)

/-! Concrete instances used to witness the theorems below. -/

/-- A two-key interpolation map: version 0 sets a default, version 1 renames
a field. -/
def wImap : List (Int × List Action) :=
  [(1, [Action.mk3 (PVal.str "mv") (PVal.str "a") (PVal.str "b")]),
   (0, [Action.mk3 (PVal.str "set") (PVal.str "c") (PVal.int 7)])]

/-- A serializable class at version 2 carrying `wImap`. -/
def wKlass : PyClass :=
  { name := "pkg.C", serializeVersion? := some 2, serializeFields := [],
    interpolationMap? := some wImap, paramNames? := none,
    isBaseEstimator := false }

/-- An empty rename registry. -/
def wReg : ClassRenameRegistry := ⟨[]⟩

/-- A state dict saved by `pkg.C` at version 0, with one field `a`. -/
def wState : StateDict :=
  [(PVal.str "class_tree_versions", PVal.vmanifest [("pkg.C", 0)]),
   (PVal.str "a", PVal.int 5)]

/-- A state dict whose manifest has no entry for `pkg.C`. -/
def w2State : StateDict :=
  [(PVal.str "class_tree_versions", PVal.vmanifest [("other.D", 1)]),
   (PVal.str "a", PVal.int 5)]

/-- A versioned class with one serializable field `x`. -/
def w3Class : PyClass :=
  { name := "pkg.D", serializeVersion? := some 3, serializeFields := ["x"],
    interpolationMap? := none, paramNames? := none, isBaseEstimator := false }

/-- An unversioned ancestor class. -/
def w3Base : PyClass :=
  { name := "pkg.Base", serializeVersion? := none, serializeFields := [],
    interpolationMap? := none, paramNames? := none, isBaseEstimator := false }

/-- An instance of `pkg.D` with `x = 5` and no special capabilities. -/
def w3Obj : PyObj :=
  { mro := [w3Class, w3Base], attrs := [("x", PVal.int 5)],
    hasGetParams := false, hasSetParams := false,
    hasGetParamNamesSelf := false, hasGetModelParams := false,
    modelParams := [], hasSetModelParams := false,
    hasGetModelParamNames := false, modelParamNames := [],
    saveDataProducer := false }

/-- A minimal instance for exercising `__setstate__`. -/
def w4Obj : PyObj :=
  { mro := [w3Base], attrs := [],
    hasGetParams := false, hasSetParams := false,
    hasGetParamNamesSelf := false, hasGetModelParams := false,
    modelParams := [], hasSetModelParams := false,
    hasGetModelParamNames := false, modelParamNames := [],
    saveDataProducer := false }

/-- A decode input with one unconsumed extra key `junk`. -/
def w4StateLeft : StateDict :=
  [(PVal.str "class_tree_versions", PVal.vmanifest []),
   (PVal.str "junk", PVal.int 1)]

/-- A decode input missing the mandatory `class_tree_versions` key, so that
`state.pop('class_tree_versions')` raises `KeyError` inside `__setstate__`. -/
def w4StateKeyErr : StateDict := [(PVal.str "foo", PVal.int 1)]

/-- A chain whose producer's class lacks `_serialize_version`. -/
def w5Obj : ChainObj :=
  ChainObj.cons true (some false) (ChainObj.leafAbsent false none)

/-- A healthy chain (producer serializable), instance flag initially off. -/
def w6Obj : ChainObj :=
  ChainObj.cons true (some false) (ChainObj.leafAbsent true none)

/-- An instance that was saved with the producer-chain flag on and has a
producer attribute. -/
def w7Obj : PyObj :=
  { mro := [w3Class, w3Base],
    attrs := [("x", PVal.int 5), ("data_producer", PVal.str "upstream")],
    hasGetParams := false, hasSetParams := false,
    hasGetParamNamesSelf := false, hasGetModelParams := false,
    modelParams := [], hasSetModelParams := false,
    hasGetModelParamNames := false, modelParamNames := [],
    saveDataProducer := true }

/-- A subclass `pkg.B` of `pkg.A`. -/
def w9A : PyClass :=
  { name := "pkg.A", serializeVersion? := some 1, serializeFields := [],
    interpolationMap? := none, paramNames? := none, isBaseEstimator := false }

/-- See `w9A`. -/
def w9B : PyClass :=
  { name := "pkg.B", serializeVersion? := some 1, serializeFields := [],
    interpolationMap? := none, paramNames? := none, isBaseEstimator := false }

/-- A stored instance whose class is `pkg.B` (a subclass of `pkg.A`). -/
def w9Obj : PyObj :=
  { mro := [w9B, w9A], attrs := [],
    hasGetParams := false, hasSetParams := false,
    hasGetParamNamesSelf := false, hasGetModelParams := false,
    modelParams := [], hasSetModelParams := false,
    hasGetModelParamNames := false, modelParamNames := [],
    saveDataProducer := false }

/-- A file with a single slot `latest` holding `w9Obj`. -/
def w9File : H5File := ⟨[("latest", w9Obj)]⟩

instance : IsTotal (Int × List Action) (fun p q => p.1 ≤ q.1) :=
  ⟨fun a b => Int.le_total a.1 b.1⟩

instance : IsTrans (Int × List Action) (fun p q => p.1 ≤ q.1) :=
  ⟨fun _ _ _ h1 h2 => le_trans h1 h2⟩

/-! Association-list lemmas. -/

theorem alPop_eq_none_of_alGet? {κ α : Type} [DecidableEq κ]
    (l : List (κ × α)) (k : κ) (h : alGet? l k = none) : alPop l k = none := by
  induction l with
  | nil => rfl
  | cons p rest ih =>
      obtain ⟨k1, v1⟩ := p
      by_cases hk : k1 = k
      · simp [alGet?, hk] at h
      · simp only [alGet?, hk, if_false, if_neg hk] at h
        simp [alPop, hk, ih h]

theorem alPopD_of_alGet?_none {κ α : Type} [DecidableEq κ]
    (l : List (κ × α)) (k : κ) (h : alGet? l k = none) : alPopD l k = l := by
  unfold alPopD
  rw [alPop_eq_none_of_alGet? l k h]

/-- C8: during interpolation an `mv` action whose source key is absent
raises `DeveloperError`, while an `rm` action whose key is absent is a no-op
that leaves the state dict unchanged. -/
theorem c8_mv_missing_raises_rm_missing_noop (st : StateDict)
    (name newName k : PVal)
    (hmv : alGet? st name = none) (hrm : alGet? st k = none) :
    applyAction st (Action.mk3 (PVal.str "mv") name newName)
        = (st, some PyErr.developerError)
    ∧ applyAction st (Action.mk2 (PVal.str "rm") k) = (st, none) := by
  constructor
  · simp [applyAction, alPop_eq_none_of_alGet? st name hmv]
  · simp [applyAction, alPopD_of_alGet?_none st k hrm]

/-- Concrete instantiation of the C8 theorem. -/
theorem c8_witness :
    applyAction [] (Action.mk3 (PVal.str "mv") (PVal.str "old") (PVal.str "new"))
        = ([], some PyErr.developerError)
    ∧ applyAction [] (Action.mk2 (PVal.str "rm") (PVal.str "gone")) = ([], none) :=
  c8_mv_missing_raises_rm_missing_noop [] (PVal.str "old") (PVal.str "new")
    (PVal.str "gone") (by decide) (by decide)

/-- C10: an action tuple whose verb is valid but whose length does not match
the verb's arity — a 2-element `('set', name)` or `('mv', old)`, or a
3-element `('rm', a, b)` — passes `_validate_interpolation_map` and is
silently skipped by `__interpolate`, leaving the state dict unchanged. -/
theorem c10_arity_mismatch_validates_and_skips (st : StateDict) (x a b : PVal) :
    validateInterpolationMap
        [(0, [Action.mk2 (PVal.str "set") x, Action.mk2 (PVal.str "mv") x,
              Action.mk3 (PVal.str "rm") a b])]
      = .ok [(0, [Action.mk2 (PVal.str "set") x, Action.mk2 (PVal.str "mv") x,
              Action.mk3 (PVal.str "rm") a b])]
    ∧ applyAction st (Action.mk2 (PVal.str "set") x) = (st, none)
    ∧ applyAction st (Action.mk2 (PVal.str "mv") x) = (st, none)
    ∧ applyAction st (Action.mk3 (PVal.str "rm") a b) = (st, none) := by
  refine ⟨rfl, ?_, ?_, ?_⟩
  · simp [applyAction]
  · simp [applyAction]
  · simp [applyAction]

/-! Interpolation: the infinity sentinel (C2). -/

theorem versionFromNames_eq_inf (state : StateDict) (ns : List String)
    (h : ∀ n ∈ ns, manifestLookup state n = none) :
    versionFromNames state ns = Version.inf := by
  induction ns with
  | nil => rfl
  | cons n rest ih =>
      have hn := h n (by simp)
      simp only [versionFromNames, hn]
      exact ih (fun m hm => h m (by simp [hm]))

/-- C2: when the manifest of the state dict has no entry for the class —
neither under its current fully qualified name nor under any historical name
the rename registry maps to it — the version lookup returns the infinity
sentinel and `__interpolate` leaves the state dict unchanged. -/
theorem c2_absent_class_yields_inf_and_skips (klass : PyClass)
    (reg : ClassRenameRegistry) (state : StateDict)
    (imap : List (Int × List Action)) (v1 : Int)
    (hmap : klass.interpolationMap? = some imap)
    (hver : klass.serializeVersion? = some v1)
    (habs : ∀ n ∈ lookupNames klass.name reg, manifestLookup state n = none) :
    getVersionForClassFromState state klass.name reg = Version.inf
    ∧ interpolate state klass reg = (state, none) := by
  have hv : getVersionForClassFromState state klass.name reg = Version.inf :=
    versionFromNames_eq_inf state _ habs
  refine ⟨hv, ?_⟩
  simp [interpolate, hmap, hver, hv, Version.gtV]

/-- Concrete instantiation of the C2 theorem. -/
theorem c2_witness :
    getVersionForClassFromState w2State wKlass.name wReg = Version.inf
    ∧ interpolate w2State wKlass wReg = (w2State, none) :=
  c2_absent_class_yields_inf_and_skips wKlass wReg w2State wImap 2
    (by decide) (by decide) (by decide)

/-! The producer-chain flag (C5, C6). -/

theorem setSDP_true_err (obj : ChainObj) :
    (setSaveDataProducer obj true).2
      = (if chainBroken obj then some PyErr.runtimeError else none) := by
  induction obj with
  | leafAbsent h f => rfl
  | leafSelfRef h f => rfl
  | leafFalsy h f => rfl
  | cons hV f p ih =>
      rcases hsp : setSaveDataProducer p true with ⟨p2, e⟩
      rw [hsp] at ih
      by_cases hv : p.hasVersion = true
      · simp [setSaveDataProducer, chainBroken, hv, hsp, ih]
      · simp [setSaveDataProducer, chainBroken, hv]

theorem chainBroken_getSDP (obj : ChainObj) :
    chainBroken (getSaveDataProducer obj).1 = chainBroken obj := by
  cases obj <;> rfl

/-- C5 (amended): saving with the producer-chain flag enabled fails with
`RuntimeError` — not `DeveloperError` — when a producer in the chain belongs
to a class without a declared `_serialize_version`. -/
theorem c5_unserializable_chain_raises_runtime (obj : ChainObj)
    (bodyFails : Bool) (h : chainBroken obj = true) :
    (saveModel obj true bodyFails).2 = some PyErr.runtimeError := by
  unfold saveModel
  rcases hg : getSaveDataProducer obj with ⟨obj1, oldFlag⟩
  have hb : chainBroken obj1 = true := by
    have := chainBroken_getSDP obj
    rw [hg] at this
    rw [this, h]
  rcases hs : setSaveDataProducer obj1 true with ⟨obj2, e⟩
  have he : e = some PyErr.runtimeError := by
    have := setSDP_true_err obj1
    rw [hs, hb] at this
    simpa using this
  subst he
  simp [hs]

/-- The claim's stated exception type is wrong at this input: the failure is
`RuntimeError`, not `DeveloperError`. -/
theorem c5_counterexample :
    (saveModel w5Obj true false).2 = some PyErr.runtimeError
    ∧ (saveModel w5Obj true false).2 ≠ some PyErr.developerError := by
  decide

/-- Concrete instantiation of the C5 theorem. -/
theorem c5_witness : (saveModel w5Obj true true).2 = some PyErr.runtimeError :=
  c5_unserializable_chain_raises_runtime w5Obj true (by decide)

theorem setSDP_flag (o : ChainObj) (v : Bool) :
    ((setSaveDataProducer o v).1).flag = some v := by
  cases o with
  | leafAbsent h f => rfl
  | leafSelfRef h f => rfl
  | leafFalsy h f => rfl
  | cons h f p =>
      rcases hsp : setSaveDataProducer p v with ⟨p2, e⟩
      by_cases hv : v = true
      · subst hv
        by_cases hp : p.hasVersion = true
        · simp [setSaveDataProducer, hp, hsp, ChainObj.flag]
        · simp [setSaveDataProducer, hp, ChainObj.flag]
      · have hv2 : v = false := by simpa using hv
        subst hv2
        simp [setSaveDataProducer, ChainObj.flag]

/-- C6 (amended): whenever the initial assignment of the producer-chain flag
inside `save` succeeds, the flag is restored to its prior value on
termination, whether the h5py/jsonpickle body succeeds or raises.  (When the
initial assignment itself raises, the flag keeps the newly assigned value:
see the counterexample.) -/
theorem c6_flag_restored_when_assignment_succeeds (obj : ChainObj)
    (streamFlag bodyFails : Bool)
    (h : (setSaveDataProducer (getSaveDataProducer obj).1 streamFlag).2 = none) :
    ((saveModel obj streamFlag bodyFails).1).flag
      = some (getSaveDataProducer obj).2 := by
  unfold saveModel
  rcases hg : getSaveDataProducer obj with ⟨obj1, oldFlag⟩
  rcases hs : setSaveDataProducer obj1 streamFlag with ⟨obj2, e⟩
  have he : e = none := by
    rw [hg] at h
    simp only at h
    rw [hs] at h
    exact h
  subst he
  rcases hr : setSaveDataProducer obj2 oldFlag with ⟨obj3, e2⟩
  have h3 : obj3.flag = some oldFlag := by
    have := setSDP_flag obj2 oldFlag
    rw [hr] at this
    exact this
  cases e2 <;> simp [hs, hr, h3]

/-- Concrete instantiation of the C6 theorem: the body raises, the flag is
still restored. -/
theorem c6_witness :
    ((saveModel w6Obj true true).1).flag = some (getSaveDataProducer w6Obj).2 :=
  c6_flag_restored_when_assignment_succeeds w6Obj true true (by decide)

/-- The claim as stated is false: when the initial flag assignment raises
(unserializable producer), `save` terminates by exception with the flag left
at the new value `true`, not its prior value `false`. -/
theorem c6_counterexample :
    (getSaveDataProducer w5Obj).2 = false
    ∧ ((saveModel w5Obj true false).1).flag = some true
    ∧ ((saveModel w5Obj true false).1).flag ≠ some false := by
  decide

/-! Container loading (C9). -/

/-- C9: `load` raises `ValueError` when the requested model slot is absent
from the file, and the class-method `load` raises `ValueError` whenever the
decoded object's class is not exactly the invoked class — in particular an
instance of a proper subclass is rejected. -/
theorem c9_load_slot_and_type_errors (f : H5File) (modelName : String)
    (cls : ClsRef) (obj : PyObj) :
    (alGet? f.slots modelName = none →
        loadModel f modelName = .error PyErr.valueError)
    ∧ (loadModel f modelName = .ok obj → obj.clsName? ≠ some cls.name →
        loadForClass cls f modelName = .error PyErr.valueError)
    ∧ (∀ c0 rest, loadModel f modelName = .ok obj → obj.mro = c0 :: rest →
        c0.name ≠ cls.name → cls.name ∈ rest.map PyClass.name →
        loadForClass cls f modelName = .error PyErr.valueError) := by
  refine ⟨?_, ?_, ?_⟩
  · intro h
    simp [loadModel, h]
  · intro h hne
    simp [loadForClass, h, hne]
  · intro c0 rest h hmro hne _
    have hcn : obj.clsName? ≠ some cls.name := by
      simp only [PyObj.clsName?, hmro, List.head?, Option.map]
      intro hc
      exact hne (by simpa using hc)
    simp [loadForClass, h, hcn]

/-- Concrete instantiation of the C9 theorem: a missing slot, and a stored
`pkg.B` instance rejected by `pkg.A`'s class-method `load`. -/
theorem c9_witness :
    loadModel w9File "missing" = .error PyErr.valueError
    ∧ loadForClass ⟨"pkg.A", true⟩ w9File "latest" = .error PyErr.valueError :=
  ⟨(c9_load_slot_and_type_errors w9File "missing" ⟨"pkg.A", true⟩ w9Obj).1
      (by decide),
   (c9_load_slot_and_type_errors w9File "latest" ⟨"pkg.A", true⟩ w9Obj).2.2
      w9B [w9A] rfl rfl (by decide) (by decide)⟩

/-! Decoding outcomes (C4). -/

/-- C4 (amended): during `__setstate__`, a final `AssertionError` (left-over
unconsumed keys) is logged together with the left-over state and the
partially populated instance is returned; and any *other* exception raised
during decode is likewise caught by the trailing bare `except`, logged, and
the partially populated instance is returned — it is *not* re-raised. -/
theorem c4_setstate_swallows_exceptions (obj : PyObj) (state : StateDict)
    (reg : ClassRenameRegistry) :
    (∀ p, setstateBody obj state reg = (p, some PyErr.assertionError) →
        setstate obj state reg = (p.1, SetstateOutcome.leftoverLogged p.2))
    ∧ (∀ p e, setstateBody obj state reg = (p, some e) →
        e ≠ PyErr.assertionError →
        setstate obj state reg = (p.1, SetstateOutcome.exceptionLogged e))
    ∧ (∀ p, setstateBody obj state reg = (p, none) →
        setstate obj state reg = (p.1, SetstateOutcome.normal)) := by
  refine ⟨?_, ?_, ?_⟩
  · rintro ⟨o2, s2⟩ h
    simp [setstate, h]
  · rintro ⟨o2, s2⟩ e h hne
    cases e with
    | assertionError => exact absurd rfl hne
    | developerError => simp [setstate, h]
    | runtimeError => simp [setstate, h]
    | keyError => simp [setstate, h]
    | attributeError => simp [setstate, h]
    | valueError => simp [setstate, h]
    | genericError => simp [setstate, h]
  · rintro ⟨o2, s2⟩ h
    simp [setstate, h]

/-- Concrete instantiation of the C4 theorem: one extra key `junk` is logged
as left-over state and the load still returns the instance. -/
theorem c4_witness :
    setstate w4Obj w4StateLeft wReg
      = ((setstateBody w4Obj w4StateLeft wReg).1.1,
          SetstateOutcome.leftoverLogged (setstateBody w4Obj w4StateLeft wReg).1.2) :=
  (c4_setstate_swallows_exceptions w4Obj w4StateLeft wReg).1
    (setstateBody w4Obj w4StateLeft wReg).1 (by decide)

/-- The claim's second half is false on the code: here `state.pop(
'class_tree_versions')` raises `KeyError` during decode, and `__setstate__`
catches and logs it and returns instead of re-raising. -/
theorem c4_counterexample :
    (setstate w4Obj w4StateKeyErr wReg).2
      = SetstateOutcome.exceptionLogged PyErr.keyError := by
  decide

/-! The interpolation range equivalence (C1). -/

theorem applyActions_append_ok (st st2 : StateDict) (xs ys : List Action)
    (h : applyActions st xs = (st2, none)) :
    applyActions st (xs ++ ys) = applyActions st2 ys := by
  induction xs generalizing st with
  | nil =>
      simp only [applyActions, Prod.mk.injEq, and_true] at h
      simp [h]
  | cons a rest ih =>
      rcases ha : applyAction st a with ⟨stA, e⟩
      cases e with
      | none =>
          simp only [applyActions, ha] at h
          simp only [List.cons_append, applyActions, ha]
          exact ih stA h
      | some err =>
          simp only [applyActions, ha] at h
          exact absurd h (by simp)

theorem applyActions_append_err (st st2 : StateDict) (e : PyErr)
    (xs ys : List Action) (h : applyActions st xs = (st2, some e)) :
    applyActions st (xs ++ ys) = (st2, some e) := by
  induction xs generalizing st with
  | nil => simp [applyActions] at h
  | cons a rest ih =>
      rcases ha : applyAction st a with ⟨stA, e2⟩
      cases e2 with
      | none =>
          simp only [applyActions, ha] at h
          simp only [List.cons_append, applyActions, ha]
          exact ih stA h
      | some err =>
          simp only [applyActions, ha, Prod.mk.injEq, Option.some.injEq] at h
          simp only [List.cons_append, applyActions, ha, h.1, h.2]

theorem applyVersionKeys_eq_filter (cur : Int) (kv : Version)
    (l : List (Int × List Action)) (st : StateDict) :
    applyVersionKeys cur kv l st
      = applyActions st
          (((l.filter (fun p => decide (cur > p.1) && kv.leKey p.1)).map
              Prod.snd).flatten) := by
  induction l generalizing st with
  | nil => rfl
  | cons p rest ih =>
      rcases p with ⟨key, acts⟩
      by_cases hc : (decide (cur > key) && kv.leKey key) = true
      · rcases ha : applyActions st acts with ⟨stA, e⟩
        cases e with
        | none =>
            simp only [applyVersionKeys, hc, if_true, ha, List.filter_cons,
              List.map_cons, List.flatten_cons]
            rw [applyActions_append_ok st stA acts _ ha]
            exact ih stA
        | some err =>
            simp only [applyVersionKeys, hc, if_true, ha, List.filter_cons,
              List.map_cons, List.flatten_cons]
            exact (applyActions_append_err st stA err acts _ ha).symm
      · simp only [applyVersionKeys, hc, if_false, List.filter_cons]
        rw [if_neg (by simp [hc])]
        exact ih st

theorem validateInterpolationMap_ok_sorted
    (imap m : List (Int × List Action))
    (h : validateInterpolationMap imap = .ok m) : m = sortByKey imap := by
  by_cases hv : mapActionsValid (sortByKey imap) = true
  · rw [show validateInterpolationMap imap = Except.ok (sortByKey imap) from by
      simp [validateInterpolationMap, hv]] at h
    injection h with h2
    exact h2.symm
  · rw [show validateInterpolationMap imap
        = Except.error PyErr.developerError from by
      simp [validateInterpolationMap, hv]] at h
    exact absurd h (by simp)

theorem sortByKey_pairwise (l : List (Int × List Action)) :
    List.Pairwise (fun p q => p.1 ≤ q.1) (sortByKey l) :=
  List.sorted_insertionSort _ l

/-- C1: for a class with an interpolation map, a state dict whose manifest
gives that class saved version `v0`, and current class version `v1`,
`__interpolate` applies exactly the action-lists whose keys `k` satisfy
`v0 <= k < v1`, in ascending key order, actions within a key in declared
order, and no action of any key outside that range (the equivalence with the
spec-side `interpolateSpec`); the replayed map is sorted ascending by key. -/
theorem c1_interpolate_applies_exact_range (klass : PyClass)
    (reg : ClassRenameRegistry) (state : StateDict)
    (imap sorted : List (Int × List Action)) (v0 v1 : Int)
    (hmap : klass.interpolationMap? = some imap)
    (hver : klass.serializeVersion? = some v1)
    (hv0 : getVersionForClassFromState state klass.name reg = Version.fin v0)
    (hvalid : validateInterpolationMap imap = .ok sorted) :
    interpolate state klass reg = interpolateSpec imap v0 v1 state
    ∧ List.Pairwise (fun p q => p.1 ≤ q.1) (sortByKey imap) := by
  refine ⟨?_, sortByKey_pairwise imap⟩
  have hs := validateInterpolationMap_ok_sorted imap sorted hvalid
  subst hs
  by_cases hgt : (Version.fin v0).gtV v1 = true
  · have hv01 : v1 < v0 := by simpa [Version.gtV] using hgt
    have hfil : (sortByKey imap).filter
        (fun p => decide (v0 ≤ p.1) && decide (p.1 < v1)) = [] := by
      rw [List.filter_eq_nil_iff]
      intro p _
      simp only [Bool.and_eq_true, decide_eq_true_eq, not_and]
      intro h1 h2
      omega
    simp [interpolate, hmap, hver, hv0, hgt, interpolateSpec, actionsInRange,
      hfil, applyActions]
  · have hl : interpolate state klass reg
        = applyVersionKeys v1 (Version.fin v0) (sortByKey imap) state := by
      simp [interpolate, hmap, hver, hv0, hgt, hvalid]
    rw [hl, applyVersionKeys_eq_filter]
    unfold interpolateSpec actionsInRange
    have hcong : ∀ p ∈ sortByKey imap,
        (decide (v1 > p.1) && (Version.fin v0).leKey p.1)
          = (decide (v0 ≤ p.1) && decide (p.1 < v1)) := by
      intro p _
      simp only [Version.leKey]
      rw [Bool.and_comm]
    rw [List.filter_congr hcong]

/-- Concrete instantiation of the C1 theorem: `pkg.C` saved at version 0,
current version 2, with rules at keys 0 and 1. -/
theorem c1_witness :
    interpolate wState wKlass wReg = interpolateSpec wImap 0 2 wState
    ∧ List.Pairwise (fun p q => p.1 ≤ q.1) (sortByKey wImap) :=
  c1_interpolate_applies_exact_range wKlass wReg wState wImap
    (sortByKey wImap) 0 2 (by decide) (by decide) (by decide) rfl

/-! Key-preservation lemmas for the `__getstate__` pipeline (C3, C7). -/

theorem alGet?_alSet_self {κ α : Type} [DecidableEq κ] (l : List (κ × α))
    (k : κ) (v : α) : alGet? (alSet l k v) k = some v := by
  induction l with
  | nil => simp [alSet, alGet?]
  | cons p rest ih =>
      obtain ⟨k1, v1⟩ := p
      by_cases hk : k1 = k
      · simp [alSet, alGet?, hk]
      · simp [alSet, alGet?, hk, ih]

theorem alGet?_alSet_ne {κ α : Type} [DecidableEq κ] (l : List (κ × α))
    (k k2 : κ) (v : α) (h : k ≠ k2) :
    alGet? (alSet l k v) k2 = alGet? l k2 := by
  induction l with
  | nil => simp [alSet, alGet?, h]
  | cons p rest ih =>
      obtain ⟨k1, v1⟩ := p
      by_cases hk : k1 = k
      · subst hk
        simp [alSet, alGet?, h]
      · rw [show alSet ((k1, v1) :: rest) k v = (k1, v1) :: alSet rest k v from by
          simp [alSet, hk]]
        by_cases hk2 : k1 = k2
        · simp [alGet?, hk2]
        · simp [alGet?, hk2, ih]

theorem mem_alSet {κ α : Type} [DecidableEq κ] (l : List (κ × α)) (k : κ)
    (v : α) (p : κ × α) (h : p ∈ alSet l k v) : p.1 = k ∨ p ∈ l := by
  induction l with
  | nil =>
      simp only [alSet, List.mem_singleton] at h
      left
      rw [h]
  | cons q rest ih =>
      obtain ⟨k1, v1⟩ := q
      by_cases hk : k1 = k
      · rw [show alSet ((k1, v1) :: rest) k v = (k1, v) :: rest from by
          simp [alSet, hk]] at h
        rcases List.mem_cons.mp h with h2 | h2
        · left
          rw [h2, hk]
        · right
          exact List.mem_cons_of_mem _ h2
      · rw [show alSet ((k1, v1) :: rest) k v = (k1, v1) :: alSet rest k v from by
          simp [alSet, hk]] at h
        rcases List.mem_cons.mp h with h2 | h2
        · right
          rw [h2]
          exact List.mem_cons_self _ _
        · rcases ih h2 with h3 | h3
          · exact Or.inl h3
          · exact Or.inr (List.mem_cons_of_mem _ h3)

theorem alGet?_sdUpdate_ne (res : StateDict) (other : List (PVal × PVal))
    (k : PVal) (h : ∀ p ∈ other, p.1 ≠ k) :
    alGet? (sdUpdate res other) k = alGet? res k := by
  induction other generalizing res with
  | nil => rfl
  | cons q rest ih =>
      have hstep : sdUpdate res (q :: rest) = sdUpdate (alSet res q.1 q.2) rest := rfl
      rw [hstep, ih (alSet res q.1 q.2) (fun p hp => h p (List.mem_cons_of_mem _ hp)),
        alGet?_alSet_ne _ _ _ _ (h q (List.mem_cons_self _ _))]

theorem mem_sdUpdate (res : StateDict) (other : List (PVal × PVal))
    (p : PVal × PVal) (h : p ∈ sdUpdate res other) :
    p ∈ res ∨ ∃ q ∈ other, p.1 = q.1 := by
  induction other generalizing res with
  | nil => exact Or.inl h
  | cons q rest ih =>
      have hstep : sdUpdate res (q :: rest) = sdUpdate (alSet res q.1 q.2) rest := rfl
      rw [hstep] at h
      rcases ih (alSet res q.1 q.2) h with h2 | h2
      · rcases mem_alSet _ _ _ _ h2 with h3 | h3
        · exact Or.inr ⟨q, List.mem_cons_self _ _, h3⟩
        · exact Or.inl h3
      · rcases h2 with ⟨r, hr, hpr⟩
        exact Or.inr ⟨r, List.mem_cons_of_mem _ hr, hpr⟩

theorem ctv_fold_pres (l : List PyClass) (acc : List (String × Int)) (nm : String)
    (h : ∀ c ∈ l, c.name ≠ nm) :
    alGet? (l.foldl (fun acc c => alSet acc c.name (c.serializeVersion?.getD (-1))) acc) nm
      = alGet? acc nm := by
  induction l generalizing acc with
  | nil => rfl
  | cons c rest ih =>
      simp only [List.foldl_cons]
      rw [ih _ (fun d hd => h d (List.mem_cons_of_mem _ hd)),
        alGet?_alSet_ne _ _ _ _ (h c (List.mem_cons_self _ _))]

theorem ctv_fold_content (l : List PyClass) (acc : List (String × Int))
    (c : PyClass) (hnd : (l.map PyClass.name).Nodup) (hc : c ∈ l) :
    alGet? (l.foldl (fun acc c => alSet acc c.name (c.serializeVersion?.getD (-1))) acc) c.name
      = some (c.serializeVersion?.getD (-1)) := by
  induction l generalizing acc with
  | nil => cases hc
  | cons d rest ih =>
      simp only [List.map_cons, List.nodup_cons] at hnd
      rcases List.mem_cons.mp hc with h | h
      · subst h
        simp only [List.foldl_cons]
        rw [ctv_fold_pres rest _ c.name
          (fun e he hne => hnd.1 (hne ▸ List.mem_map_of_mem PyClass.name he))]
        exact alGet?_alSet_self _ _ _
      · simp only [List.foldl_cons]
        exact ih _ hnd.2 h

theorem alGet?_buildClassTreeVersions (mro : List PyClass) (c : PyClass)
    (hnd : (mro.map PyClass.name).Nodup) (hc : c ∈ mro) :
    alGet? (buildClassTreeVersions mro) c.name
      = some (c.serializeVersion?.getD (-1)) :=
  ctv_fold_content mro [] c hnd hc

theorem mem_stateOfFields (obj : PyObj) (klass : PyClass) (p : PVal × PVal)
    (hp : p ∈ stateOfSerializeableFields obj klass) :
    ∃ f ∈ klass.serializeFields, p.1 = PVal.str f := by
  unfold stateOfSerializeableFields at hp
  rw [List.mem_filterMap] at hp
  obtain ⟨f, hf, hmap⟩ := hp
  cases hg : alGet? obj.attrs f with
  | none =>
      rw [hg] at hmap
      exact absurd hmap (by simp)
  | some v =>
      rw [hg] at hmap
      rw [show Option.map (fun v => (PVal.str f, v)) (some v)
          = some (PVal.str f, v) from rfl] at hmap
      injection hmap with hmap2
      exact ⟨f, hf, by rw [← hmap2]⟩

theorem incOfClass_keys (obj : PyObj) (klass : PyClass)
    (inc : List (PVal × PVal)) (h : incOfClass obj klass = .ok inc)
    (p : PVal × PVal) (hp : p ∈ inc) :
    ∃ f ∈ classWrites klass, p.1 = PVal.str f := by
  unfold incOfClass at h
  by_cases hb : klass.isBaseEstimator = true
  · rw [if_pos hb] at h
    cases hpn : klass.paramNames? with
    | none =>
        rw [hpn] at h
        exact absurd h (by simp)
    | some ns =>
        rw [hpn] at h
        injection h with h2
        rw [← h2] at hp
        rcases mem_sdUpdate _ _ _ hp with h3 | h3
        · obtain ⟨f, hf, hpf⟩ := mem_stateOfFields _ _ _ h3
          exact ⟨f, by simp [classWrites, hf], hpf⟩
        · rcases h3 with ⟨q, hq, hpq⟩
          rw [List.mem_map] at hq
          obtain ⟨f, hf, rfl⟩ := hq
          exact ⟨f, by simp [classWrites, hpn, hf], by simpa using hpq⟩
  · rw [if_neg hb] at h
    injection h with h2
    rw [← h2] at hp
    obtain ⟨f, hf, hpf⟩ := mem_stateOfFields _ _ _ hp
    exact ⟨f, by simp [classWrites, hf], hpf⟩

theorem stepClasses_pres (obj : PyObj) (cs : List PyClass)
    (res res2 : StateDict) (k : PVal) (h : stepClasses obj cs res = .ok res2)
    (hk : ∀ klass ∈ cs, ∀ f ∈ classWrites klass, PVal.str f ≠ k) :
    alGet? res2 k = alGet? res k := by
  induction cs generalizing res with
  | nil =>
      injection h with h2
      rw [h2]
  | cons klass rest ih =>
      simp only [stepClasses] at h
      cases hinc : incOfClass obj klass with
      | error e =>
          rw [hinc] at h
          exact absurd h (by simp)
      | ok inc =>
          rw [hinc] at h
          rw [ih _ h (fun kl hk2 => hk kl (List.mem_cons_of_mem _ hk2))]
          exact alGet?_sdUpdate_ne _ _ _ (fun p hp => by
            obtain ⟨f, hf, hpf⟩ := incOfClass_keys obj klass inc hinc p hp
            rw [hpf]
            exact hk klass (List.mem_cons_self _ _) f hf)

theorem stepProducer_pres (obj : PyObj) (res res2 : StateDict) (k : PVal)
    (h : stepProducer obj res = .ok res2)
    (hk : k ≠ PVal.str "data_producer") : alGet? res2 k = alGet? res k := by
  unfold stepProducer at h
  by_cases hf : obj.saveDataProducer = true
  · rw [if_pos hf] at h
    cases hdp : alGet? obj.attrs "data_producer" with
    | none =>
        rw [hdp] at h
        exact absurd h (by simp)
    | some v =>
        rw [hdp] at h
        injection h with h2
        rw [← h2, alGet?_alSet_ne _ _ _ _ (Ne.symm hk)]
  · rw [if_neg hf] at h
    injection h with h2
    rw [h2]

theorem stepIsReader_pres (obj : PyObj) (res : StateDict) (k : PVal)
    (hk : k ≠ PVal.str "_is_reader") :
    alGet? (stepIsReader obj res) k = alGet? res k := by
  unfold stepIsReader
  cases h : alGet? obj.attrs "_is_reader" with
  | none => rfl
  | some v => exact alGet?_alSet_ne _ _ _ _ (Ne.symm hk)

theorem stepEstimator_pres (obj : PyObj) (res res2 : StateDict) (k : PVal)
    (h : stepEstimator obj res = .ok res2)
    (hk1 : k ≠ PVal.str "_estimated") (hk2 : k ≠ PVal.str "model") :
    alGet? res2 k = alGet? res k := by
  unfold stepEstimator at h
  by_cases hg : obj.hasGetParams = true
  · rw [if_pos hg] at h
    cases he : alGet? obj.attrs "_estimated" with
    | none =>
        rw [he] at h
        exact absurd h (by simp)
    | some v =>
        rw [he] at h
        cases hm : alGet? obj.attrs "_model" with
        | some m =>
            rw [hm] at h
            injection h with h3
            rw [← h3, alGet?_alSet_ne _ _ _ _ (Ne.symm hk2),
              alGet?_alSet_ne _ _ _ _ (Ne.symm hk1)]
        | none =>
            rw [hm] at h
            injection h with h3
            rw [← h3, alGet?_alSet_ne _ _ _ _ (Ne.symm hk1)]
  · rw [if_neg hg] at h
    injection h with h3
    rw [h3]

theorem stepModelParams_pres (obj : PyObj) (res : StateDict) (k : PVal)
    (hk : ∀ f ∈ obj.modelParams.map Prod.fst, PVal.str f ≠ k) :
    alGet? (stepModelParams obj res) k = alGet? res k := by
  unfold stepModelParams
  by_cases hg : obj.hasGetModelParams = true
  · rw [if_pos hg]
    exact alGet?_sdUpdate_ne _ _ _ (fun p hp => by
      rw [List.mem_map] at hp
      obtain ⟨q, hq, hpq⟩ := hp
      rw [← hpq]
      exact hk q.1 (List.mem_map_of_mem _ hq))
  · rw [if_neg hg]

theorem getstateTail_pres (obj : PyObj) (res1 res : StateDict) (k : PVal)
    (h : getstateTail obj res1 = .ok res)
    (hk1 : k ≠ PVal.str "_is_reader") (hk2 : k ≠ PVal.str "_estimated")
    (hk3 : k ≠ PVal.str "model") (hk4 : k ≠ PVal.str "_pyemma_version")
    (hcls : ∀ klass ∈ classesToInspect obj, ∀ f ∈ classWrites klass, PVal.str f ≠ k)
    (hmp : ∀ f ∈ obj.modelParams.map Prod.fst, PVal.str f ≠ k) :
    alGet? res k = alGet? res1 k := by
  simp only [getstateTail] at h
  cases hc : stepClasses obj (classesToInspect obj) (stepIsReader obj res1) with
  | error e =>
      rw [hc] at h
      exact absurd h (by simp)
  | ok res3 =>
      rw [hc] at h
      dsimp only at h
      cases he : stepEstimator obj res3 with
      | error e =>
          rw [he] at h
          exact absurd h (by simp)
      | ok res4 =>
          rw [he] at h
          dsimp only at h
          injection h with h5
          rw [← h5, alGet?_alSet_ne _ _ _ _ (Ne.symm hk4),
            stepModelParams_pres obj res4 k hmp,
            stepEstimator_pres obj res3 res4 k he hk2 hk3,
            stepClasses_pres obj _ _ res3 k hc hcls,
            stepIsReader_pres obj res1 k hk1]

theorem getstateCore_ok_destruct (obj : PyObj) (res : StateDict)
    (h : getstateCore obj = .ok res) :
    ∃ res1, stepProducer obj
        [(PVal.str "class_tree_versions",
          PVal.vmanifest (buildClassTreeVersions obj.mro))] = .ok res1
      ∧ getstateTail obj res1 = .ok res := by
  simp only [getstateCore] at h
  by_cases hg : (!(obj.mro.any (fun c => c.serializeVersion?.isSome))) = true
  · rw [if_pos hg] at h
    exact absurd h (by simp)
  · rw [if_neg hg] at h
    cases hp : stepProducer obj
        [(PVal.str "class_tree_versions",
          PVal.vmanifest (buildClassTreeVersions obj.mro))] with
    | error e =>
        rw [hp] at h
        exact absurd h (by simp)
    | ok res1 =>
        rw [hp] at h
        exact ⟨res1, rfl, h⟩

theorem classWritesKeyNe (klass : PyClass) (s : String)
    (h : s ∉ classWrites klass) :
    ∀ f ∈ classWrites klass, PVal.str f ≠ PVal.str s := by
  intro f hf heq
  have hfs : f = s := by simpa using heq
  exact h (hfs ▸ hf)

theorem modelParamsKeyNe (obj : PyObj) (s : String)
    (h : s ∉ obj.modelParams.map Prod.fst) :
    ∀ f ∈ obj.modelParams.map Prod.fst, PVal.str f ≠ PVal.str s := by
  intro f hf heq
  have hfs : f = s := by simpa using heq
  exact h (hfs ▸ hf)

/-- C3: the `class_tree_versions` manifest produced by `__getstate__` maps
the fully qualified name of every class of the instance's method-resolution
order to that class's `_serialize_version`, with the sentinel `-1` for
classes that declare none; in particular the instance's own class name maps
to exactly its current version.  (Hypotheses: mro names are distinct — they
are fully qualified — and no inspected field/parameter shadows the
`class_tree_versions` key.) -/
theorem c3_manifest_maps_ancestry (obj : PyObj) (res : StateDict)
    (c0 : PyClass) (rest : List PyClass) (v : Int)
    (hmro : obj.mro = c0 :: rest)
    (hv : c0.serializeVersion? = some v)
    (hnd : (obj.mro.map PyClass.name).Nodup)
    (hres : getstateCore obj = .ok res)
    (hcls : ∀ klass ∈ classesToInspect obj, "class_tree_versions" ∉ classWrites klass)
    (hmp : "class_tree_versions" ∉ obj.modelParams.map Prod.fst) :
    alGet? res (PVal.str "class_tree_versions")
      = some (PVal.vmanifest (buildClassTreeVersions obj.mro))
    ∧ (∀ c ∈ obj.mro, alGet? (buildClassTreeVersions obj.mro) c.name
        = some (c.serializeVersion?.getD (-1)))
    ∧ alGet? (buildClassTreeVersions obj.mro) c0.name = some v := by
  obtain ⟨res1, hp, ht⟩ := getstateCore_ok_destruct obj res hres
  refine ⟨?_, ?_, ?_⟩
  · rw [getstateTail_pres obj res1 res _ ht (by decide) (by decide) (by decide)
      (by decide) (fun klass hkl => classWritesKeyNe klass _ (hcls klass hkl))
      (modelParamsKeyNe obj _ hmp),
      stepProducer_pres obj _ res1 _ hp (by decide)]
    simp [alGet?]
  · intro c hc
    exact alGet?_buildClassTreeVersions obj.mro c hnd hc
  · have hcv := alGet?_buildClassTreeVersions obj.mro c0 hnd (by simp [hmro])
    rw [hv] at hcv
    simpa using hcv

/-- Concrete instantiation of the C3 theorem on `w3Obj`. -/
theorem c3_witness :
    alGet? [(PVal.str "class_tree_versions",
              PVal.vmanifest [("pkg.D", 3), ("pkg.Base", -1)]),
            (PVal.str "x", PVal.int 5),
            (PVal.str "_pyemma_version", PVal.str "2.5.12")]
        (PVal.str "class_tree_versions")
      = some (PVal.vmanifest (buildClassTreeVersions w3Obj.mro))
    ∧ (∀ c ∈ w3Obj.mro, alGet? (buildClassTreeVersions w3Obj.mro) c.name
        = some (c.serializeVersion?.getD (-1)))
    ∧ alGet? (buildClassTreeVersions w3Obj.mro) w3Class.name = some 3 :=
  c3_manifest_maps_ancestry w3Obj _ w3Class [w3Base] 3 rfl rfl (by decide)
    rfl (by decide) (by decide)

/-- C7: with the producer-chain flag set, `__getstate__` stores the
instance's `data_producer` under the reserved `data_producer` key of the
encoded state; with the flag unset that key is never present; and the flag
assignment forwards `True` transitively to the producer, so the producer's
own encoding in turn includes its producer.  (Hypotheses: no inspected
field/parameter shadows the `data_producer` key.) -/
theorem c7_producer_chain_inclusion (obj : PyObj) (res : StateDict) (p : PVal)
    (hcls : ∀ klass ∈ classesToInspect obj, "data_producer" ∉ classWrites klass)
    (hmp : "data_producer" ∉ obj.modelParams.map Prod.fst)
    (hres : getstateCore obj = .ok res) :
    (obj.saveDataProducer = true → alGet? obj.attrs "data_producer" = some p →
        alGet? res (PVal.str "data_producer") = some p)
    ∧ (obj.saveDataProducer = false →
        alGet? res (PVal.str "data_producer") = none)
    ∧ (∀ (hV : Bool) (f : Option Bool) (q : ChainObj), q.hasVersion = true →
        (setSaveDataProducer (ChainObj.cons hV f q) true).1
          = ChainObj.cons hV (some true) (setSaveDataProducer q true).1) := by
  obtain ⟨res1, hp, ht⟩ := getstateCore_ok_destruct obj res hres
  have hpres : alGet? res (PVal.str "data_producer")
      = alGet? res1 (PVal.str "data_producer") :=
    getstateTail_pres obj res1 res _ ht (by decide) (by decide) (by decide)
      (by decide) (fun klass hkl => classWritesKeyNe klass _ (hcls klass hkl))
      (modelParamsKeyNe obj _ hmp)
  refine ⟨?_, ?_, ?_⟩
  · intro hflag hattr
    rw [hpres]
    unfold stepProducer at hp
    rw [if_pos hflag, hattr] at hp
    injection hp with h2
    rw [← h2]
    exact alGet?_alSet_self _ _ _
  · intro hflag
    rw [hpres]
    unfold stepProducer at hp
    rw [if_neg (by simp [hflag])] at hp
    injection hp with h2
    rw [← h2]
    simp [alGet?]
  · intro hV f q hq
    rcases hsq : setSaveDataProducer q true with ⟨q2, e⟩
    simp [setSaveDataProducer, hq, hsq]

/-- Concrete instantiation of the C7 theorem on `w7Obj` (flag set, producer
present). -/
theorem c7_witness :
    alGet? [(PVal.str "class_tree_versions",
              PVal.vmanifest [("pkg.D", 3), ("pkg.Base", -1)]),
            (PVal.str "data_producer", PVal.str "upstream"),
            (PVal.str "x", PVal.int 5),
            (PVal.str "_pyemma_version", PVal.str "2.5.12")]
        (PVal.str "data_producer")
      = some (PVal.str "upstream") :=
  (c7_producer_chain_inclusion w7Obj _ (PVal.str "upstream") (by decide)
    (by decide) rfl).1 rfl rfl

end PyEMMA
